import Mathlib

/- Shallow embedding of the go-puzzles/prouter HTTP dispatch layer
(src/router.go, src/group.go). Pure functions are translated directly;
Go "panic" is modelled as Option.none; the nil-able Response interface is
modelled as Option; external collaborators (the gorilla/mux matching engine,
net.SplitHostPort / net.ParseIP, http.FileServer) are abstracted as
parameters or, where the spec describes them, modelled from the spec. -/

/- Mode constants from src/router.go lines 16-23. -/

def DebugMode : Int := 0

def ReleaseMode : Int := 1

/-- SetMode from src/router.go lines 25-34. The Go function switches on the
value, stores it into the process-wide prouterMode variable for DebugMode and
ReleaseMode, and panics on anything else. A panic is modelled as none; a
normal return is some of the stored mode value. -/
def SetMode (value : Int) : Option Int :=
  if value = DebugMode then some DebugMode
  else if value = ReleaseMode then some ReleaseMode
  else none

/- Option plumbing from src/router.go lines 36-94. The mux.Router is modelled
by the host and scheme restrictions installed on it via Host(...).Subrouter()
and Schemes(...).Subrouter(). -/

structure MuxRouter where
  hostRestrictions : List String
  schemeRestrictions : List String
deriving DecidableEq

structure Prouter where
  host : String
  scheme : String
  router : MuxRouter
deriving DecidableEq

/-- WithHost from src/router.go lines 45-49. -/
def WithHost (host : String) : Prouter → Prouter :=
  fun v => ⟨host, v.scheme, v.router⟩

/-- WithScheme from src/router.go lines 51-55. -/
def WithScheme (scheme : String) : Prouter → Prouter :=
  fun v => ⟨v.host, scheme, v.router⟩

/-- parseOptions from src/router.go lines 69-80: apply the options, then when
host is non-empty install it as a host restriction, and when scheme is
non-empty install a scheme restriction; the source passes v.host (not
v.scheme) to Schemes. -/
def parseOptions (v : Prouter) (opts : List (Prouter → Prouter)) : Prouter :=
  let v1 := List.foldl (fun w opt => opt w) v opts
  let v2 :=
    if v1.host = "" then v1
    else ⟨v1.host, v1.scheme, v1.router.hostRestrictions ++ [v1.host], v1.router.schemeRestrictions⟩
  if v2.scheme = "" then v2
  else ⟨v2.host, v2.scheme, v2.router.hostRestrictions, v2.router.schemeRestrictions ++ [v2.host]⟩

/-- New from src/router.go lines 82-94: a fresh mux router carries no
restrictions, host and scheme start as the empty string. -/
def New (opts : List (Prouter → Prouter)) : Prouter :=
  parseOptions ⟨"", "", ⟨[], []⟩⟩ opts

/- Request and context construction, src/router.go lines 163-205. -/

structure Request where
  path : String
  rawPath : String
  rawQuery : String
  method : String
  remoteAddr : String
deriving DecidableEq

structure Context where
  path : String
  method : String
  clientIp : String
deriving DecidableEq

/-- remoteIP from src/router.go lines 163-169: split host and port off the
trimmed remote address; the external net.SplitHostPort is a parameter
returning none on error, in which case the result is the empty string. -/
def remoteIP (splitHostPort : String → Option (String × String)) (addr : String) : String :=
  match splitHostPort addr.trim with
  | none => ""
  | some hp => hp.1

/-- clientIP from src/router.go lines 171-178: parse the host produced by
remoteIP; the external net.ParseIP is a parameter returning none for an
unparseable IP (note that Go yields nil for the empty string), in which case
the result is the empty string, else the canonical string of the parsed IP. -/
def clientIP {IP : Type} (splitHostPort : String → Option (String × String))
    (parseIP : String → Option IP) (ipString : IP → String) (addr : String) : String :=
  match parseIP (remoteIP splitHostPort addr) with
  | none => ""
  | some ip => ipString ip

/-- Context construction from src/router.go lines 183-198: the context path is
the URL path with the raw query appended after a question mark when non-empty,
and ClientIp is computed by clientIP from the remote address. -/
def buildContext {IP : Type} (splitHostPort : String → Option (String × String))
    (parseIP : String → Option IP) (ipString : IP → String) (req : Request) : Context :=
  ⟨if req.rawQuery = "" then req.path else req.path ++ "?" ++ req.rawQuery,
   req.method,
   clientIP splitHostPort parseIP ipString req.remoteAddr⟩

/- Response normalization, src/router.go lines 217-257. A Go Response
interface value is a code, a message and an optional data payload; a nil
interface is none. The error is modelled by its text. -/

structure RespVal (α : Type) where
  code : Int
  message : String
  data : Option α
deriving DecidableEq

structure ResponseTmpl (α : Type) where
  code : Int
  message : String
  data : Option α
deriving DecidableEq

/-- Modelled from the spec: ErrorResponse lives in response.go, which is
absent from src/; per the spec's error taxonomy it builds a response value
carrying the given code and message and no data. -/
def ErrorResponse {α : Type} (code : Int) (message : String) : RespVal α :=
  ⟨code, message, none⟩

/-- packResponseTmpl from src/router.go lines 217-257, transcribed clause by
clause: data and code are read from the response when present (else nil and
200); the message variable keeps its zero value unless the error is non-nil,
in which case it falls back from the response message to the error text and a
code of 0 or 200 is replaced by 500. NewResponseTmpl / SetCode / SetMessage /
SetData (response.go, absent from src/) are modelled from the spec as the
plain envelope record. -/
def packResponseTmpl {α : Type} (resp : Option (RespVal α)) (err : Option String) :
    Int × ResponseTmpl α :=
  let data : Option α :=
    match resp with
    | none => none
    | some r => r.data
  let code : Int :=
    match resp with
    | none => 200
    | some r => r.code
  match err with
  | none => (code, ⟨code, "", data⟩)
  | some e =>
    let msg : String :=
      match resp with
      | none => e
      | some r => if r.message = "" then e else r.message
    let code2 : Int := if code = 0 ∨ code = 200 then 500 else code
    (code2, ⟨code2, msg, data⟩)

/-- The normalization rule in the spec's own words (section 4.5), amended on
one point where the source differs: on a nil error the envelope message is
always empty (the result's message is not propagated on the success path). -/
def normalizeSpec {α : Type} (resp : Option (RespVal α)) (err : Option String) :
    Int × ResponseTmpl α :=
  let baseCode : Int := (resp.map RespVal.code).getD 200
  let baseMsg : String := (resp.map RespVal.message).getD ""
  let d : Option α := resp.bind RespVal.data
  match err with
  | none => (baseCode, ⟨baseCode, "", d⟩)
  | some e =>
    let msg := if baseMsg = "" then e else baseMsg
    let code := if baseCode ≠ 0 ∧ baseCode ≠ 200 then baseCode else 500
    (code, ⟨code, msg, d⟩)

/- Middleware composition. A middleware is a handler transformation; the
handler type is kept generic so the same composition defined in the source
can be observed both on tracing handlers and on wire-level handlers. -/

/-- handleGlobalMiddleware from src/router.go lines 146-154: iterate the
global middleware list backward, wrapping at each step, so that the
first-registered global ends up outermost among the globals. -/
def handleGlobalMiddleware {H : Type} (ms : List (H → H)) (h : H) : H :=
  List.foldr (fun m k => m k) h ms

/-- Modelled from the spec: iRoute.handleSpecifyMiddleware lives in route.go,
which is absent from src/. Per the spec's composition rule ("composition
proceeds by wrapping from the last element backward to the first") it wraps
the given handler with the route's recorded middleware snapshot exactly the
way handleGlobalMiddleware wraps with the globals. -/
def handleSpecifyMiddleware {H : Type} (ms : List (H → H)) (h : H) : H :=
  List.foldr (fun m k => m k) h ms

/-- The effective handler built in makeHttpHandler, src/router.go lines
208-209: the raw handler is first wrapped by the globals, and that result is
then wrapped by the route's specific (group) middlewares, so the group
middlewares end up outside the globals. -/
def makeEffectiveHandler {H : Type} (globals specifics : List (H → H)) (h : H) : H :=
  handleSpecifyMiddleware specifics (handleGlobalMiddleware globals h)

/- Tracing instrumentation used to observe call order through the
composition: each middleware records an enter event before calling the inner
handler and a leave event after it returns. -/

inductive Event where
  | enter : Nat → Event
  | leave : Nat → Event
  | handle : Event
deriving DecidableEq

def HandlerT : Type := List Event → List Event

def tracingHandler : HandlerT := fun t => t ++ [Event.handle]

def tracingMW (i : Nat) (h : HandlerT) : HandlerT :=
  fun t => h (t ++ [Event.enter i]) ++ [Event.leave i]

/- Wire model for the dispatch core. A handler invocation yields the raw
writes it performed on the ResponseWriter (status and bytes; the only raw
writer in the repository is the static file pass-through), the Response value
and the error. In src/ the only call that serializes an envelope on a matched
route is WriteJSON at the end of makeHttpHandler (line 213); WriteJSON itself
(response.go, absent from src/) is modelled from the spec as serializing the
envelope with the resolved status. -/

inductive WireWrite (α : Type) where
  | raw : Int → String → WireWrite α
  | env : Int → ResponseTmpl α → WireWrite α
deriving DecidableEq

def WireWrite.isEnv {α : Type} : WireWrite α → Bool
  | WireWrite.raw _ _ => false
  | WireWrite.env _ _ => true

def HandlerRun (α : Type) : Type :=
  List (Int × String) × Option (RespVal α) × Option String

/-- makeHttpHandler from src/router.go lines 180-215: run the (already
composed) handler chain, then unconditionally pack its (resp, err) outcome
and serialize exactly one envelope after whatever raw writes the chain
performed. -/
def makeHttpHandler {α : Type} (handler : Request → HandlerRun α) (req : Request) :
    List (WireWrite α) :=
  let out := handler req
  let packed := packResponseTmpl out.2.1 out.2.2
  out.1.map (fun p => WireWrite.raw p.1 p.2) ++ [WireWrite.env packed.1 packed.2]

def notFoundMsg : String := "page not found"

def notFoundPage : String := "404 page not found"

/-- The fixed not-found envelope installed by NewProuter, src/router.go lines
103-107: WriteJSON(w, 404, ErrorResponse(404, page not found)). WriteJSON and
ErrorResponse (response.go, absent from src/) are modelled from the spec as
serializing the code, message, data envelope. -/
def notFoundTmpl {α : Type} : ResponseTmpl α := ⟨404, notFoundMsg, none⟩

/-- Top-level serving: the external matching engine is a parameter returning
the matched route's composed handler or none; on a match the dispatch core of
makeHttpHandler runs, and on a lookup failure the fixed not-found handler
installed by NewProuter (src/router.go lines 96-109) writes its envelope,
outside the handler chain. -/
def serve {α : Type} (matchRoute : Request → Option (Request → HandlerRun α))
    (req : Request) : List (WireWrite α) :=
  match matchRoute req with
  | some h => makeHttpHandler h req
  | none => [WireWrite.env 404 notFoundTmpl]

/- Static file serving, src/group.go lines 94-122. -/

/-- Modelled from the spec: http.FileServer is an external collaborator
("static-file serving (a thin I/O pass-through with no original logic)"); it
serves the file at the request path with status 200 when the filesystem
resolves it, and otherwise writes its fixed plain-text not-found page with
status 404; filesystem errors never surface as Go error values to the
dispatch core. -/
def fileServer (fs : String → Option String) (p : String) : List (Int × String) :=
  match fs p with
  | some content => [(200, content)]
  | none => [(404, notFoundPage)]

/-- Go len() on a string, modelled character-based over the underlying
character list (the inputs of interest are ASCII, where bytes and characters
coincide). -/
def strLen (s : String) : Nat := s.data.length

/-- strings.TrimPrefix: drop the given leading part when present, else return
the string unchanged (character-based over the underlying character list). -/
def trimPre (s pre : String) : String :=
  if pre.data.isPrefixOf s.data then String.mk (s.data.drop pre.data.length) else s

/-- staticHandler from src/group.go lines 94-112: strip the mount point off
Path and RawPath; when stripping shortened Path (and RawPath when present)
hand the suffix to the file server and return a nil response and nil error,
else return the 404 error response together with an error. -/
def staticHandler {α : Type} (pre : String) (fs : String → Option String)
    (req : Request) : HandlerRun α :=
  let p := trimPre req.path pre
  let rp := trimPre req.rawPath pre
  if strLen p < strLen req.path ∧ (req.rawPath = "" ∨ strLen rp < strLen req.rawPath) then
    (fileServer fs p, none, none)
  else
    ([], some (ErrorResponse 404 notFoundMsg), some notFoundMsg)

/- Group registration state, src/group.go lines 14-85. The middleware type is
generic; routes record the group's middleware sequence at registration time.
Go slice semantics make the recorded slice a value snapshot of the elements
visible at registration: a later append on the group either reallocates or
writes beyond the snapshot's length, never changing the snapshot's view. -/

structure RouteRec (μ : Type) where
  method : String
  path : String
  middleware : List μ
deriving DecidableEq

structure RouterGroup (μ : Type) where
  middlewares : List μ
  root : Bool
deriving DecidableEq

structure ProuterSt (μ : Type) where
  routes : List (RouteRec μ)
deriving DecidableEq

/-- UseMiddleware from src/group.go lines 32-34: append to the group's own
middleware sequence. -/
def UseMiddleware {μ : Type} (rg : RouterGroup μ) (ms : List μ) : RouterGroup μ :=
  ⟨rg.middlewares ++ ms, rg.root⟩

/-- The iRoute built by HandleRoute, src/group.go lines 75-82: a non-root
group records its current middleware sequence as the route's snapshot; the
root group records none (its middlewares are the globals, applied
separately). -/
def registeredRoute {μ : Type} (rg : RouterGroup μ) (method path : String) : RouteRec μ :=
  ⟨method, path, if rg.root then [] else rg.middlewares⟩

/-- HandleRoute + initRouter (src/group.go lines 60-85, src/router.go lines
126-140): the built route is handed to the root prouter and appended to the
route table. -/
def HandleRoute {μ : Type} (st : ProuterSt μ) (rg : RouterGroup μ)
    (method path : String) : ProuterSt μ :=
  ⟨st.routes ++ [registeredRoute rg method path]⟩

structure RegState (μ : Type) where
  prouter : ProuterSt μ
  group : RouterGroup μ
deriving DecidableEq

inductive RegOp (μ : Type) where
  | use : List μ → RegOp μ
  | route : String → String → RegOp μ
deriving DecidableEq

/-- One registration-phase step: UseMiddleware mutates only the group's
middleware sequence; route registration mutates only the route table. -/
def regStep {μ : Type} (s : RegState μ) : RegOp μ → RegState μ
  | RegOp.use ms => ⟨s.prouter, UseMiddleware s.group ms⟩
  | RegOp.route method path => ⟨HandleRoute s.prouter s.group method path, s.group⟩

def regRun {μ : Type} (s : RegState μ) (ops : List (RegOp μ)) : RegState μ :=
  List.foldl regStep s ops

/- Concrete inputs used by counterexamples and witnesses. -/

def mGET : String := "GET"

def pA : String := "/a"

def badAddr : String := "bad"

def ipEx : String := "1.2.3.4"

def schemeEx : String := "https"

def assetsPre : String := "/assets"

def missPath : String := "/assets/missing.png"

def hitPath : String := "/assets/x.png"

def xPng : String := "/x.png"

def pngContent : String := "PNG"

def fsEx : String → Option String := fun p => if p = xPng then some pngContent else none

def reqMiss : Request := ⟨missPath, "", "", mGET, ""⟩

def reqHit : Request := ⟨hitPath, "", "", mGET, ""⟩

def reqBad : Request := ⟨pA, "", "", mGET, badAddr⟩

/- Theorems. -/

/-- Claim C10: SetMode never panics on DebugMode (0) and ReleaseMode (1) and
stores exactly the given value as the process-wide mode, and panics (none)
for every other argument. -/
theorem SetMode_total_spec :
    ∀ v : Int, SetMode v = if v = DebugMode ∨ v = ReleaseMode then some v else none := by
  intro v
  by_cases h0 : v = DebugMode
  · subst h0; simp [SetMode]
  · by_cases h1 : v = ReleaseMode
    · subst h1; simp [SetMode, DebugMode, ReleaseMode]
    · simp [SetMode, h0, h1]

/-- Claim C9: constructing with a non-empty WithScheme(s) installs the
configured host value, not s, as the scheme restriction; with no host option
the installed scheme restriction is the empty string. -/
theorem scheme_option_installs_host_value (s : String) (hs : s ≠ "") :
    (New [WithScheme s]).router.schemeRestrictions = [""] ∧
    s ∉ (New [WithScheme s]).router.schemeRestrictions ∧
    ∀ h : String, (New [WithHost h, WithScheme s]).router.schemeRestrictions = [h] := by
  refine ⟨?_, ?_, ?_⟩
  · simp [New, parseOptions, WithScheme, hs]
  · simp [New, parseOptions, WithScheme, hs]
  · intro h
    by_cases hh : h = ""
    · simp [New, parseOptions, WithScheme, WithHost, hs, hh]
    · simp [New, parseOptions, WithScheme, WithHost, hs, hh]

theorem scheme_option_installs_host_value_witness :
    (New [WithScheme schemeEx]).router.schemeRestrictions = [""] :=
  (scheme_option_installs_host_value schemeEx (by decide)).1

/-- Claim C8: the client address stored in the request context is computed by
parsing the remote socket address, and on any parse failure (unsplittable
host and port, or unparseable IP) it is the empty string rather than an
error. The hypothesis records that Go's net.ParseIP yields nil on the empty
string. -/
theorem clientIP_empty_on_parse_failure {IP : Type}
    (splitHostPort : String → Option (String × String))
    (parseIP : String → Option IP) (ipString : IP → String) (req : Request)
    (hempty : parseIP "" = none) :
    (buildContext splitHostPort parseIP ipString req).clientIp
      = clientIP splitHostPort parseIP ipString req.remoteAddr ∧
    (splitHostPort req.remoteAddr.trim = none →
      (buildContext splitHostPort parseIP ipString req).clientIp = "") ∧
    (parseIP (remoteIP splitHostPort req.remoteAddr) = none →
      (buildContext splitHostPort parseIP ipString req).clientIp = "") := by
  refine ⟨rfl, ?_, ?_⟩
  · intro hsplit
    simp [buildContext, clientIP, remoteIP, hsplit, hempty]
  · intro hparse
    simp [buildContext, clientIP, hparse]

theorem clientIP_empty_on_parse_failure_witness :
    (buildContext (fun _ => (none : Option (String × String)))
      (fun _ => (none : Option Unit)) (fun _ => ipEx) reqBad).clientIp = "" :=
  (clientIP_empty_on_parse_failure (fun _ => none) (fun _ => (none : Option Unit))
    (fun _ => ipEx) reqBad rfl).2.1 rfl

/-- Claim C2, counterexample: on a nil error the source drops the response's
own message (the msg variable is only assigned under err non-nil), so the
envelope message is empty, contradicting the claim that it equals the
response's message. -/
theorem success_message_dropped :
    (packResponseTmpl (some (⟨200, "hello", none⟩ : RespVal Unit)) none).2.message ≠ "hello" := by
  decide

/-- Claim C2 (amended): the envelope produced by packResponseTmpl agrees with
the spec's normalization rule amended on one point — on a nil error the
message is always empty (the response's message is not propagated); all other
clauses (error-path message fallback, code fallback to 500 for 0 or 200,
code defaulting to 200, data taken from the response) hold as stated. -/
theorem packResponseTmpl_matches_spec {α : Type} :
    ∀ (resp : Option (RespVal α)) (err : Option String),
      packResponseTmpl resp err = normalizeSpec resp err := by
  intro resp err
  cases resp with
  | none =>
    cases err with
    | none => rfl
    | some e => rfl
  | some r =>
    cases err with
    | none => rfl
    | some e =>
      simp only [packResponseTmpl, normalizeSpec, Option.map_some', Option.getD_some,
        Option.some_bind]
      by_cases hc : r.code = 0 ∨ r.code = 200
      · have : ¬ (r.code ≠ 0 ∧ r.code ≠ 200) := by tauto
        simp [hc, this]
      · have : r.code ≠ 0 ∧ r.code ≠ 200 := by tauto
        simp [hc, this]

/-- Unfolding lemma for a backward-wrapped stack of tracing middlewares: the
composed handler first records the enter events in list order, runs the inner
handler, then records the leave events in reverse order. -/
theorem foldr_tracingMW (ls : List Nat) (h : HandlerT) (t : List Event) :
    List.foldr (fun m k => m k) h (ls.map tracingMW) t
      = h (t ++ ls.map Event.enter) ++ ls.reverse.map Event.leave := by
  induction ls generalizing t with
  | nil => simp
  | cons i ls ih =>
    simp only [List.map_cons, List.foldr_cons, tracingMW]
    rw [ih]
    simp [List.append_assoc]

/-- Claim C1, counterexample: with global tracing middlewares 1, 2 and group
tracing middlewares 3, 4 the effective handler does not produce the claimed
trace enter 1, enter 2, enter 3, enter 4, handle, leave 4, leave 3, leave 2,
leave 1 — the globals are not outermost. -/
theorem global_middleware_not_outermost :
    makeEffectiveHandler [tracingMW 1, tracingMW 2] [tracingMW 3, tracingMW 4]
        tracingHandler [] ≠
      [Event.enter 1, Event.enter 2, Event.enter 3, Event.enter 4, Event.handle,
       Event.leave 4, Event.leave 3, Event.leave 2, Event.leave 1] := by
  decide

/-- Claim C1 (amended): for global middlewares gs and group middlewares ss,
the effective handler built by makeHttpHandler calls the group middlewares
outermost: entry order is ss in list order, then gs in list order, then the
handler, and the unwind reverses that — the globals sit between the group
middlewares and the handler, because the source wraps the handler with the
globals first and then wraps that result in the route's group middlewares. -/
theorem effective_chain_group_outermost (gs ss : List Nat) :
    makeEffectiveHandler (gs.map tracingMW) (ss.map tracingMW) tracingHandler []
      = ss.map Event.enter ++ gs.map Event.enter ++ [Event.handle]
        ++ gs.reverse.map Event.leave ++ ss.reverse.map Event.leave := by
  show List.foldr (fun m k => m k)
      (List.foldr (fun m k => m k) tracingHandler (gs.map tracingMW)) (ss.map tracingMW) []
    = _
  rw [foldr_tracingMW]
  rw [foldr_tracingMW]
  simp [tracingHandler, List.append_assoc]

/-- No raw write counts as an envelope. -/
theorem countP_isEnv_map_raw {α : Type} (ws : List (Int × String)) :
    List.countP (@WireWrite.isEnv α) (ws.map (fun p => WireWrite.raw p.1 p.2)) = 0 := by
  induction ws with
  | nil => simp
  | cons p ws ih => simp [List.countP_cons, WireWrite.isEnv, ih]

/-- Claim C3: for every request handled by the dispatch core, exactly one
envelope is serialized to the wire — whichever route matched (the handler,
including the static one and any stack of middlewares rewriting the in-flight
result, contributes only raw writes, and makeHttpHandler appends exactly one
envelope), and the no-match branch writes exactly the one fixed envelope. -/
theorem serve_writes_exactly_one_envelope {α : Type}
    (matchRoute : Request → Option (Request → HandlerRun α)) (req : Request) :
    List.countP (@WireWrite.isEnv α) (serve matchRoute req) = 1 := by
  cases hm : matchRoute req with
  | none => simp [serve, hm, List.countP_cons, WireWrite.isEnv]
  | some f =>
    simp only [serve, hm, makeHttpHandler]
    rw [List.countP_append, countP_isEnv_map_raw]
    simp [List.countP_cons, WireWrite.isEnv]

/-- Claim C4, counterexample: a static mount under /assets with a filesystem
holding only /x.png, asked for /assets/missing.png: the only envelope
serialized for the request carries code 200, not 404 (the 404 the client sees
is the file server's raw plain-text page, and the fixed 404 envelope never
appears on the wire), contradicting the claim that a missing file returns a
404 envelope. -/
theorem static_missing_file_envelope_not_404 :
    List.filter (@WireWrite.isEnv Unit)
        (makeHttpHandler (staticHandler assetsPre fsEx) reqMiss)
      = [WireWrite.env 200 ⟨200, "", none⟩] ∧
    WireWrite.env 404 (notFoundTmpl : ResponseTmpl Unit)
      ∉ makeHttpHandler (staticHandler assetsPre fsEx) reqMiss := by
  decide

/-- Claim C4 (amended): under a static mount, a matched request whose suffix
resolves to an existing servable file gets the file bytes written with status
200 (2xx) followed by the code-200 envelope; a matched request whose suffix
does not resolve gets the external file server's fixed plain not-found page
with status 404 — never a raw filesystem error — while the JSON envelope
serialized afterwards carries code 200, not 404; a request whose path does
not carry the mount point gets exactly the 404 page-not-found envelope. -/
theorem staticHandler_dispatch_spec {α : Type} (pre : String)
    (fs : String → Option String) (req : Request) :
    (strLen (trimPre req.path pre) < strLen req.path ∧
        (req.rawPath = "" ∨ strLen (trimPre req.rawPath pre) < strLen req.rawPath) →
      (∀ c, fs (trimPre req.path pre) = some c →
        @makeHttpHandler α (@staticHandler α pre fs) req
          = [WireWrite.raw 200 c, WireWrite.env 200 ⟨200, "", none⟩]) ∧
      (fs (trimPre req.path pre) = none →
        @makeHttpHandler α (@staticHandler α pre fs) req
          = [WireWrite.raw 404 notFoundPage, WireWrite.env 200 ⟨200, "", none⟩])) ∧
    (¬ (strLen (trimPre req.path pre) < strLen req.path ∧
        (req.rawPath = "" ∨ strLen (trimPre req.rawPath pre) < strLen req.rawPath)) →
      @makeHttpHandler α (@staticHandler α pre fs) req
        = [WireWrite.env 404 ⟨404, notFoundMsg, none⟩]) := by
  constructor
  · intro hc
    constructor
    · intro c hfs
      simp [makeHttpHandler, staticHandler, hc, fileServer, hfs, packResponseTmpl]
    · intro hfs
      simp [makeHttpHandler, staticHandler, hc, fileServer, hfs, packResponseTmpl]
  · intro hc
    simp [makeHttpHandler, staticHandler, hc, packResponseTmpl, ErrorResponse, notFoundMsg]

theorem staticHandler_dispatch_spec_witness :
    @makeHttpHandler Unit (@staticHandler Unit assetsPre fsEx) reqHit
      = [WireWrite.raw 200 pngContent, WireWrite.env 200 ⟨200, "", none⟩] :=
  ((staticHandler_dispatch_spec assetsPre fsEx reqHit).1 (by decide)).1 pngContent (by decide)

/-- Claim C5: the middleware sequence recorded for a route is a snapshot
taken at registration time — running a route registration and then a
UseMiddleware on the same group leaves the newly registered route with
exactly the group's middleware sequence as of registration, so any middleware
absent from that sequence (in particular each one appended afterwards) is not
part of the route's chain at dispatch. -/
theorem route_snapshot_excludes_later_middleware {μ : Type} (s : RegState μ)
    (method path : String) (ms : List μ) (m : μ) (hm : m ∉ s.group.middlewares) :
    ∀ r ∈ (regRun s [RegOp.route method path, RegOp.use ms]).prouter.routes.drop
        s.prouter.routes.length,
      r.middleware = (if s.group.root then [] else s.group.middlewares) ∧
      m ∉ r.middleware := by
  intro r hr
  simp only [regRun, List.foldl_cons, List.foldl_nil, regStep, HandleRoute] at hr
  rw [List.drop_left] at hr
  simp only [List.mem_singleton] at hr
  subst hr
  refine ⟨rfl, ?_⟩
  by_cases hroot : s.group.root = true
  · simp [registeredRoute, hroot]
  · simp only [Bool.not_eq_true] at hroot
    simp [registeredRoute, hroot, hm]

theorem route_snapshot_excludes_later_middleware_witness :
    (registeredRoute (⟨[0], false⟩ : RouterGroup Nat) mGET pA).middleware = [0] ∧
    (5 : Nat) ∉ (registeredRoute (⟨[0], false⟩ : RouterGroup Nat) mGET pA).middleware := by
  have h := route_snapshot_excludes_later_middleware
    (⟨⟨[]⟩, ⟨[0], false⟩⟩ : RegState Nat) mGET pA [5] 5 (by decide)
  have h2 := h (registeredRoute (⟨[0], false⟩ : RouterGroup Nat) mGET pA) (by decide)
  exact ⟨by simpa using h2.1, h2.2⟩

/-- Claim C7: whenever route lookup fails (no route found, or match
predicates unsatisfied — the engine reports no-match either way), the
response is exactly the fixed not-found envelope with code 404 installed by
NewProuter, generated outside the normal handler chain (no handler raw writes
appear and no packing of a handler result takes place). -/
theorem unmatched_request_gets_fixed_404_envelope {α : Type}
    (matchRoute : Request → Option (Request → HandlerRun α)) (req : Request)
    (hmiss : matchRoute req = none) :
    serve matchRoute req = [WireWrite.env 404 ⟨404, notFoundMsg, none⟩] := by
  simp [serve, hmiss, notFoundTmpl]

theorem unmatched_request_gets_fixed_404_envelope_witness :
    serve (fun _ => (none : Option (Request → HandlerRun Unit))) reqMiss
      = [WireWrite.env 404 ⟨404, notFoundMsg, none⟩] :=
  unmatched_request_gets_fixed_404_envelope (fun _ => none) reqMiss rfl
